import Mathlib

/-!
Shallow embedding of the task-scheduling core of the daily task planner
(`components/DailyTask`, TypeScript version, plus the earlier JavaScript
version kept in the repository).  Pure helpers (`timeToMinutes`,
`minutesToTime`, `calcEndTimeFromStart`) are translated directly; the React
state updates (`commitTask`, `addOrUpdateTask`, `toggleDone`, `removeTask`,
`resetDay`, `importCSV`) are modelled as explicit functions on the `data`
map, with JavaScript runtime errors (`undefined.map` and the like) modelled
by `Option`.
-/

set_option maxHeartbeats 2000000

namespace Planner

/-- JavaScript values produced by the time helpers: `null`, `NaN`, or a
number (integral in every case arising in this code). -/
inductive JsVal where
  | null
  | nan
  | num (n : Int)
deriving DecidableEq

/-- One entry of a day's task list (interface `Task` in the source). -/
structure Task where
  id : String
  name : String
  durationMinutes : Int
  startTime : String
  endTime : String
  done : Bool
deriving DecidableEq

/-- The component's `data` state: a map from date keys to task lists
(`DataMap` in the source), modelled as an association list with
JavaScript-object update semantics. -/
abbrev DataMap := List (String × List Task)

/-- Splits a character list at every occurrence of the separator; auxiliary
for `jsSplit`. -/
def splitAux (c : Char) : List Char → List Char → List (List Char)
  | [], acc => [acc.reverse]
  | x :: xs, acc =>
    if x = c then acc.reverse :: splitAux c xs []
    else splitAux c xs (x :: acc)

/-- Model of JavaScript `s.split(c)` for a one-character separator: the
pieces between occurrences of `c`, empty pieces included, and `[s]` when `c`
does not occur (`"".split(c)` gives `[""]`). -/
def jsSplit (c : Char) (s : String) : List String :=
  (splitAux c s.data []).map (fun l => ⟨l⟩)

/-- Decimal value of a list of digit characters. -/
def digitsToNat (l : List Char) : Nat :=
  l.foldl (fun acc c => acc * 10 + (c.toNat - 48)) 0

/-- Model of JavaScript `parseInt(s, 10)`: skip leading whitespace, read an
optional sign and then the longest prefix of decimal digits, ignoring any
trailing garbage; `none` models the `NaN` result (no digits found). -/
def jsParseInt (s : String) : Option Int :=
  let l := s.data.dropWhile (fun c => c.isWhitespace)
  match l with
  | '-' :: rest =>
    let d := rest.takeWhile (fun c => c.isDigit)
    if d.isEmpty then none else some (-(digitsToNat d : Int))
  | '+' :: rest =>
    let d := rest.takeWhile (fun c => c.isDigit)
    if d.isEmpty then none else some ((digitsToNat d : Int))
  | _ =>
    let d := l.takeWhile (fun c => c.isDigit)
    if d.isEmpty then none else some ((digitsToNat d : Int))

/-- `timeToMinutes` from the source: `null` on empty (falsy) input, otherwise
`parseInt(hh || "0", 10) * 60 + parseInt(mm || "0", 10)` where `hh`/`mm` are
the pieces around the first `:` (a missing or empty piece becomes `"0"`); a
failed `parseInt` propagates as `NaN`. -/
def timeToMinutes (timeStr : String) : JsVal :=
  if timeStr = "" then .null
  else
    let parts := jsSplit ':' timeStr
    let hh0 := (parts.head?).getD ""
    let mm0 := (parts[1]?).getD ""
    let hh := if hh0 = "" then "0" else hh0
    let mm := if mm0 = "" then "0" else mm0
    match jsParseInt hh, jsParseInt mm with
    | some h, some m => .num (h * 60 + m)
    | _, _ => .nan

/-- The decimal digit character for `n < 10`. -/
def digitChar (n : Nat) : Char :=
  match n with
  | 0 => '0' | 1 => '1' | 2 => '2' | 3 => '3' | 4 => '4'
  | 5 => '5' | 6 => '6' | 7 => '7' | 8 => '8' | _ => '9'

/-- Fuel-driven decimal rendering; the fuel is an upper bound on the number
of digits, so the first branch is never reached from `natToDigits`. -/
def natToDigitsAux : Nat → Nat → List Char
  | 0, n => [digitChar (n % 10)]
  | fuel + 1, n =>
    if n < 10 then [digitChar n]
    else natToDigitsAux fuel (n / 10) ++ [digitChar (n % 10)]

/-- Decimal digit characters of a natural number (JavaScript
`Number.prototype.toString` restricted to the non-negative integers used
here). -/
def natToDigits (n : Nat) : List Char := natToDigitsAux n n

/-- JavaScript `n.toString()` for a non-negative integer. -/
def natToString (n : Nat) : String := ⟨natToDigits n⟩

/-- JavaScript `s.padStart(2, "0")`. -/
def padTwo (s : String) : String :=
  if s.length ≥ 2 then s else ⟨List.replicate (2 - s.length) '0' ++ s.data⟩

/-- `minutesToTime` from the source: `"--:--"` for `null`/`NaN`, otherwise
the input is clamped to `[0, 1440]`, rendered as zero-padded `HH:MM`, with
hour `24` displayed as `"23:59"`. -/
def minutesToTime (mins : JsVal) : String :=
  match mins with
  | .null => "--:--"
  | .nan => "--:--"
  | .num n =>
    let m0 := if n < 0 then 0 else n
    let m := if m0 > 1440 then 1440 else m0
    let h := padTwo (natToString (m.toNat / 60))
    let mm := padTwo (natToString (m.toNat % 60))
    if h = "24" then "23:59" else h ++ ":" ++ mm

/-- `calcEndTimeFromStart` from the source: `null` when the start does not
parse or when `startMin + durMin` exceeds `24 * 60`, otherwise the rendered
end time. -/
def calcEndTimeFromStart (startStr : String) (durMin : Int) : Option String :=
  match timeToMinutes startStr with
  | .null => none
  | .nan => none
  | .num startMin =>
    let endMin := startMin + durMin
    if endMin > 24 * 60 then none else some (minutesToTime (.num endMin))

/-- JavaScript `s.trim()`. -/
def jsTrim (s : String) : String :=
  ⟨((s.data.dropWhile (fun c => c.isWhitespace)).reverse.dropWhile
      (fun c => c.isWhitespace)).reverse⟩

/-- First-match association lookup: JavaScript property read `d[date]`, with
`none` for `undefined`. -/
def lookupKey : DataMap → String → Option (List Task)
  | [], _ => none
  | (k, v) :: rest, key => if k = key then some v else lookupKey rest key

/-- `tasksForDate` from the source: `data[date] || []`. -/
def getList (data : DataMap) (date : String) : List Task :=
  (lookupKey data date).getD []

/-- JavaScript object update `{ ...d, [k]: v }`: replaces the value at an
existing key (object keys are unique, so replacing the first occurrence is
exact), otherwise adds the binding at the end, as object spread does. -/
def setKey : DataMap → String → List Task → DataMap
  | [], k, v => [(k, v)]
  | (k0, v0) :: rest, k, v =>
    if k0 = k then (k, v) :: rest else (k0, v0) :: setKey rest k v

/-- The pending-form record stored by the TypeScript `addOrUpdateTask` before
the bedtime confirmation (`PendingForm` in the source). -/
structure Pending where
  name : String
  durationMinutes : Int
  startTime : String
  endTime : String
  isEdit : Bool
  editId : Option String
deriving DecidableEq

/-- JavaScript truthiness of the `editId` field (`null` and `""` are
falsy). -/
def idTruthy : Option String → Bool
  | none => false
  | some s => !(s == "")

/-- The per-task function `commitTask` maps over the day's list in edit
mode: the task whose id matches `form.editId` gets the submitted name
(trimmed), duration, start and end; every other task is returned as is. -/
def editApply (form : Pending) (t : Task) : Task :=
  if form.editId = some t.id then
    { t with name := jsTrim form.name,
             durationMinutes := form.durationMinutes,
             startTime := form.startTime, endTime := form.endTime }
  else t

/-- `commitTask` from the TypeScript source, as a function of the `data` map:
in edit mode it maps `editApply` over the day's list; otherwise it appends a
fresh task with `done := false` and returns the new end time as the
auto-chained next start (`setStartTime(form.endTime)`). -/
def commitTask (form : Pending) (currentDate : String) (data : DataMap)
    (freshId : String) : DataMap × Option String :=
  let list := getList data currentDate
  if form.isEdit && idTruthy form.editId then
    (setKey data currentDate (list.map (editApply form)), none)
  else
    let newTask : Task :=
      { id := freshId, name := jsTrim form.name,
        durationMinutes := form.durationMinutes,
        startTime := form.startTime, endTime := form.endTime, done := false }
    (setKey data currentDate (list ++ [newTask]), some form.endTime)

/-- The form inputs read by `addOrUpdateTask`. -/
structure FormState where
  name : String
  durHours : Int
  durMinutes : Int
  startTime : String
  editTask : Option Task
deriving DecidableEq

/-- Outcome of one submission: a validation error message (store untouched),
the bedtime confirmation prompt holding the pending form (store untouched),
or an immediate commit with the new store and the auto-chained start hint. -/
inductive SubmitResult where
  | error (msg : String)
  | prompt (pending : Pending)
  | committed (newData : DataMap) (chainStart : Option String)
deriving DecidableEq

/-- JavaScript `a >= b` on numbers where either side may be `NaN` (false) —
`null` does not reach this comparison in the modelled code path. -/
def jsGe (a b : JsVal) : Bool :=
  match a, b with
  | .nan, _ => false
  | _, .nan => false
  | .null, .null => true
  | .null, .num n => decide ((0 : Int) ≥ n)
  | .num n, .null => decide (n ≥ 0)
  | .num x, .num y => decide (x ≥ y)

/-- JavaScript `a < b` under the same conventions (`null` coerces to 0,
comparisons with `NaN` are false). -/
def jsLt (a b : JsVal) : Bool :=
  match a, b with
  | .nan, _ => false
  | _, .nan => false
  | .null, .null => false
  | .null, .num n => decide ((0 : Int) < n)
  | .num n, .null => decide (n < 0)
  | .num x, .num y => decide (x < y)

/-- `timeToMinutes(endTime) ?? 0`: the nullish coalescing applied before the
bedtime comparison (`??` replaces `null`, while `NaN` passes through). -/
def endMinOrZero (endTime : String) : JsVal :=
  match timeToMinutes endTime with
  | .null => .num 0
  | v => v

/-- `addOrUpdateTask` from the TypeScript source: name / start-time /
duration checks, end-time computation (overflow fails), then either the
bedtime prompt (`endMin >= 22 * 60`, where `endMin` is
`timeToMinutes(endTime) ?? 0`) or an immediate `commitTask`. -/
def addOrUpdateTask (st : FormState) (currentDate : String) (data : DataMap)
    (freshId : String) : SubmitResult :=
  let duration := st.durHours * 60 + st.durMinutes
  if jsTrim st.name = "" then .error "Give the task a name."
  else if st.startTime = "" then .error "Pick a start time."
  else if duration ≤ 0 then .error "Duration must be greater than 0."
  else
    match calcEndTimeFromStart st.startTime duration with
    | none =>
      .error "Task would end past midnight. Pick a shorter duration or earlier start."
    | some endTime =>
      let pending : Pending :=
        { name := st.name, durationMinutes := duration,
          startTime := st.startTime, endTime := endTime,
          isEdit := st.editTask.isSome, editId := st.editTask.map Task.id }
      if jsGe (endMinOrZero endTime) (.num (22 * 60)) then .prompt pending
      else
        let r := commitTask pending currentDate data freshId
        .committed r.1 r.2

/-- `addOrUpdateTask` from the earlier JavaScript version of the component
(`DailyTask.jsx`): same field checks, then the out-of-order check for new
tasks (`startMin < timeToMinutes(last.endTime)`), then the overflow check,
then an inline commit with no bedtime gate. -/
def addOrUpdateTaskJS (st : FormState) (currentDate : String) (data : DataMap)
    (freshId : String) : SubmitResult :=
  let duration := st.durHours * 60 + st.durMinutes
  if jsTrim st.name = "" then .error "Give the task a name."
  else if st.startTime = "" then .error "Pick a start time."
  else if duration ≤ 0 then .error "Duration must be greater than 0."
  else
    let startMin := timeToMinutes st.startTime
    let list := getList data currentDate
    if st.editTask.isNone && !list.isEmpty &&
        jsLt startMin
          (timeToMinutes (((list.getLast?).getD ⟨"", "", 0, "", "", false⟩).endTime)) then
      .error "Start time cannot be earlier than the previous task's end time."
    else
      match calcEndTimeFromStart st.startTime duration with
      | none =>
        .error "Task would end past midnight. Pick a shorter duration or earlier start."
      | some endTime =>
        match st.editTask with
        | some et =>
          let updated := list.map (fun t =>
            if t.id = et.id then
              { t with name := jsTrim st.name, durationMinutes := duration,
                       startTime := st.startTime, endTime := endTime }
            else t)
          .committed (setKey data currentDate updated) none
        | none =>
          let newTask : Task :=
            { id := freshId, name := jsTrim st.name,
              durationMinutes := duration, startTime := st.startTime,
              endTime := endTime, done := false }
          .committed (setKey data currentDate (list ++ [newTask])) (some endTime)

/-- The bedtime-modal part of the component state. -/
structure ModalState where
  pendingForm : Option Pending
  bedtimeModalOpen : Bool
deriving DecidableEq

/-- `handleModalConfirm` from the source: commits the pending form if there
is one (which also clears the pending form and closes the modal), otherwise
does nothing. -/
def handleModalConfirm (ms : ModalState) (currentDate : String)
    (data : DataMap) (freshId : String) : DataMap × ModalState × Option String :=
  match ms.pendingForm with
  | some f =>
    let r := commitTask f currentDate data freshId
    (r.1, ⟨none, false⟩, r.2)
  | none => (data, ms, none)

/-- `handleModalCancel` from the source: discards the pending form and closes
the modal; the `data` map is not touched. -/
def handleModalCancel (_ms : ModalState) (data : DataMap) : DataMap × ModalState :=
  (data, ⟨none, false⟩)

/-- `toggleDone` from the source.  `d[date].map` throws a `TypeError` when
the date key is absent; that crash is modelled by `none`. -/
def toggleDone (date id : String) (data : DataMap) : Option DataMap :=
  match lookupKey data date with
  | none => none
  | some l =>
    some (setKey data date
      (l.map (fun t => if t.id = id then { t with done := !t.done } else t)))

/-- `removeTask` from the source.  `d[date].filter` throws a `TypeError` when
the date key is absent; that crash is modelled by `none`. -/
def removeTask (date id : String) (data : DataMap) : Option DataMap :=
  match lookupKey data date with
  | none => none
  | some l => some (setKey data date (l.filter (fun t => t.id != id)))

/-- `resetDay` from the source, after the user confirms: the day's list is
replaced by the empty list. -/
def resetDay (date : String) (data : DataMap) : DataMap :=
  setKey data date []

/-- Model of JavaScript `Number(s)` restricted to the inputs this code meets:
after trimming, the empty string is `0` and an optionally signed run of
decimal digits is its value; everything else — including the fractional and
exponent forms no CSV row in the claims uses — is `none` (`NaN`). -/
def jsNumber (s : String) : Option Int :=
  let l := (jsTrim s).data
  match l with
  | [] => some 0
  | '-' :: rest =>
    if !rest.isEmpty && rest.all (fun c => c.isDigit) then
      some (-(digitsToNat rest : Int))
    else none
  | '+' :: rest =>
    if !rest.isEmpty && rest.all (fun c => c.isDigit) then
      some ((digitsToNat rest : Int))
    else none
  | _ =>
    if l.all (fun c => c.isDigit) then some ((digitsToNat l : Int)) else none

/-- One iteration of the `importCSV` row loop: split the line on commas,
skip it when the date field is falsy, otherwise ensure the date key exists
and push the imported task, defaulting missing name/times and mapping the
duration through `Number(durationStr) || 0`. -/
def importRow (line : String) (i : Nat) (freshId : Nat → String)
    (out : DataMap) : DataMap :=
  let fields := jsSplit ',' line
  let date := (fields[0]?).getD ""
  if date = "" then out
  else
    let nameF := (fields[1]?).getD ""
    let start := (fields[2]?).getD ""
    let endF := (fields[3]?).getD ""
    let durationStr := (fields[4]?).getD ""
    let doneStr := (fields[5]?).getD ""
    let base := if lookupKey out date = none then setKey out date [] else out
    let task : Task :=
      { id := freshId i,
        name := if nameF = "" then "Imported" else nameF,
        startTime := if start = "" then "00:00" else start,
        endTime := if endF = "" then "00:00" else endF,
        durationMinutes := (jsNumber durationStr).getD 0,
        done := doneStr == "1" }
    setKey base date (getList base date ++ [task])

/-- The indexed loop of `importCSV`. -/
def importLoop (freshId : Nat → String) : List String → Nat → DataMap → DataMap
  | [], _, out => out
  | line :: rest, i, out => importLoop freshId rest (i + 1) (importRow line i freshId out)

/-- `importCSV` from the source, as a function of the file text and the
current `data` map: split into non-empty lines, skip a header line starting
with the literal `"date,"`, then run the row loop. -/
def importCSV (text : String) (data : DataMap) (freshId : Nat → String) : DataMap :=
  let lines := (jsSplit '\n' text).filter (fun l => l != "")
  let startAt := match lines[0]? with
    | some l0 => if "date,".data.isPrefixOf l0.data then 1 else 0
    | none => 0
  importLoop freshId (lines.drop startAt) startAt data

example : timeToMinutes "09:30" = .num 570 := by decide
example : timeToMinutes "" = .null := by decide
example : timeToMinutes ":30" = .num 30 := by decide
example : timeToMinutes "12" = .num 720 := by decide
example : timeToMinutes "ab" = .nan := by decide
example : minutesToTime (.num 570) = "09:30" := by decide
example : minutesToTime (.num 1440) = "23:59" := by decide
example : calcEndTimeFromStart "23:50" 20 = none := by decide
example : calcEndTimeFromStart "09:00" 30 = some "09:30" := by decide

/-! ### Round trip of minute offsets through the `HH:MM` representation -/

theorem splitAux_no_sep (c : Char) (l acc : List Char) (h : c ∉ l) :
    splitAux c l acc = [acc.reverse ++ l] := by
  induction l generalizing acc with
  | nil => simp [splitAux]
  | cons x xs ih =>
    have hx : ¬(x = c) := fun hxc => h (hxc ▸ List.mem_cons_self x xs)
    rw [splitAux, if_neg hx, ih _ (fun hm => h (List.mem_cons_of_mem _ hm))]
    simp

theorem splitAux_sep (c : Char) (l1 l2 acc : List Char) (h : c ∉ l1) :
    splitAux c (l1 ++ c :: l2) acc = (acc.reverse ++ l1) :: splitAux c l2 [] := by
  induction l1 generalizing acc with
  | nil => simp [splitAux]
  | cons x xs ih =>
    have hx : ¬(x = c) := fun hxc => h (hxc ▸ List.mem_cons_self x xs)
    rw [List.cons_append, splitAux, if_neg hx,
      ih _ (fun hm => h (List.mem_cons_of_mem _ hm))]
    simp

theorem append_data (a b : String) : (a ++ b).data = a.data ++ b.data := by
  cases a; cases b; rfl

theorem pair_data (hs ms : String) :
    (hs ++ ":" ++ ms).data = hs.data ++ ':' :: ms.data := by
  rw [append_data, append_data]
  simp [String.data]

theorem jsSplit_pair (hs ms : String) (hc : ':' ∉ hs.data) (hcm : ':' ∉ ms.data) :
    jsSplit ':' (hs ++ ":" ++ ms) = [hs, ms] := by
  rw [jsSplit, pair_data, splitAux_sep _ _ _ _ hc, splitAux_no_sep _ _ _ hcm]
  simp

theorem jsParseInt_padTwo :
    ∀ n : Fin 100, jsParseInt (padTwo (natToString n.val)) = some (n.val : Int) := by
  decide

theorem colon_not_in_padTwo :
    ∀ n : Fin 100, ':' ∉ (padTwo (natToString n.val)).data := by
  decide

theorem padTwo_ne_empty : ∀ n : Fin 100, padTwo (natToString n.val) ≠ "" := by
  decide

theorem padTwo_ne_24 : ∀ n : Fin 24, padTwo (natToString n.val) ≠ "24" := by
  decide

theorem minutesToTime_inRange (m : Nat) (hm : m ≤ 1439) :
    minutesToTime (.num (m : Int)) =
      padTwo (natToString (m / 60)) ++ ":" ++ padTwo (natToString (m % 60)) := by
  have h1 : ¬((m : Int) < 0) := by omega
  have h2 : ¬((m : Int) > 1440) := by omega
  have h24 : m / 60 < 24 := by omega
  simp only [minutesToTime, h1, if_false, h2, Int.toNat_natCast,
    if_neg (padTwo_ne_24 ⟨m / 60, h24⟩)]

theorem timeToMinutes_pair (hs ms : String) (hne : hs ≠ "") (hnem : ms ≠ "")
    (hc : ':' ∉ hs.data) (hcm : ':' ∉ ms.data) (a b : Int)
    (pa : jsParseInt hs = some a) (pb : jsParseInt ms = some b) :
    timeToMinutes (hs ++ ":" ++ ms) = .num (a * 60 + b) := by
  have hnonempty : (hs ++ ":" ++ ms) ≠ "" := by
    intro hcontra
    have := congrArg String.data hcontra
    rw [pair_data] at this
    simp [String.data] at this
  rw [timeToMinutes, if_neg hnonempty]
  simp only [jsSplit_pair hs ms hc hcm, List.head?, Option.getD_some,
    List.getElem?_cons_succ, List.getElem?_cons_zero]
  rw [if_neg hne, if_neg hnem, pa, pb]

/-- Round trip: for `m` in `[0, 1439]`, rendering with `minutesToTime` and
parsing back with `timeToMinutes` returns `m`. -/
theorem timeToMinutes_minutesToTime (m : Nat) (hm : m ≤ 1439) :
    timeToMinutes (minutesToTime (.num (m : Int))) = .num (m : Int) := by
  have hd : m / 60 < 100 := by omega
  have hr : m % 60 < 100 := by omega
  rw [minutesToTime_inRange m hm,
    timeToMinutes_pair _ _ (padTwo_ne_empty ⟨m / 60, hd⟩) (padTwo_ne_empty ⟨m % 60, hr⟩)
      (colon_not_in_padTwo ⟨m / 60, hd⟩) (colon_not_in_padTwo ⟨m % 60, hr⟩)
      _ _ (jsParseInt_padTwo ⟨m / 60, hd⟩) (jsParseInt_padTwo ⟨m % 60, hr⟩)]
  congr 1
  push_cast
  omega

/-! ### Store lemmas -/

theorem lookupKey_setKey_self (d : DataMap) (k : String) (v : List Task) :
    lookupKey (setKey d k v) k = some v := by
  induction d with
  | nil => simp [setKey, lookupKey]
  | cons p rest ih =>
    obtain ⟨k0, v0⟩ := p
    by_cases h : k0 = k
    · simp [setKey, h, lookupKey]
    · simp [setKey, h, lookupKey, ih]

theorem lookupKey_setKey_other (d : DataMap) (k k2 : String) (v : List Task)
    (h : k2 ≠ k) : lookupKey (setKey d k v) k2 = lookupKey d k2 := by
  induction d with
  | nil =>
    have : ¬(k = k2) := fun hk => h hk.symm
    simp [setKey, lookupKey, this]
  | cons p rest ih =>
    obtain ⟨k0, v0⟩ := p
    by_cases h0 : k0 = k
    · have hk2 : ¬(k = k2) := fun hk => h hk.symm
      subst h0
      simp [setKey, lookupKey, hk2]
    · by_cases h2 : k0 = k2
      · subst h2; simp [setKey, h0, lookupKey, h]
      · simp [setKey, h0, lookupKey, h2, ih]

theorem setKey_self_of_lookup (d : DataMap) (k : String) (v : List Task)
    (h : lookupKey d k = some v) : setKey d k v = d := by
  induction d with
  | nil => simp [lookupKey] at h
  | cons p rest ih =>
    obtain ⟨k0, v0⟩ := p
    by_cases h0 : k0 = k
    · subst h0
      rw [lookupKey, if_pos rfl] at h
      injection h with h
      simp [setKey, h]
    · rw [lookupKey, if_neg h0] at h
      simp [setKey, h0, ih h]

theorem lookupKey_mem (d : DataMap) (k : String) (l : List Task)
    (h : lookupKey d k = some l) : (k, l) ∈ d := by
  induction d with
  | nil => simp [lookupKey] at h
  | cons p rest ih =>
    obtain ⟨k0, v0⟩ := p
    by_cases h0 : k0 = k
    · subst h0
      rw [lookupKey, if_pos rfl] at h
      injection h with h
      subst h
      exact List.mem_cons_self _ _
    · rw [lookupKey, if_neg h0] at h
      exact List.mem_cons_of_mem _ (ih h)

theorem mem_setKey (d : DataMap) (k : String) (v : List Task)
    (p : String × List Task) (h : p ∈ setKey d k v) : p = (k, v) ∨ p ∈ d := by
  induction d with
  | nil => simp [setKey] at h; simp [h]
  | cons q rest ih =>
    obtain ⟨k0, v0⟩ := q
    by_cases h0 : k0 = k
    · rw [setKey, if_pos h0] at h
      rcases List.mem_cons.mp h with h | h
      · exact Or.inl h
      · exact Or.inr (List.mem_cons_of_mem _ h)
    · rw [setKey, if_neg h0] at h
      rcases List.mem_cons.mp h with h | h
      · exact Or.inr (h ▸ List.mem_cons_self _ _)
      · rcases ih h with h | h
        · exact Or.inl h
        · exact Or.inr (List.mem_cons_of_mem _ h)

/-- The spec's store invariant: every task of every day has positive
duration. -/
def DurPos (d : DataMap) : Prop :=
  ∀ p ∈ d, ∀ t ∈ p.2, 0 < t.durationMinutes

instance (d : DataMap) : Decidable (DurPos d) :=
  inferInstanceAs (Decidable (∀ p ∈ d, ∀ t ∈ p.2, 0 < t.durationMinutes))

theorem durPos_getList (d : DataMap) (k : String) (hd : DurPos d) :
    ∀ t ∈ getList d k, 0 < t.durationMinutes := by
  intro t ht
  unfold getList at ht
  cases h : lookupKey d k with
  | none => rw [h] at ht; simp at ht
  | some l => rw [h] at ht; exact hd _ (lookupKey_mem d k l h) t ht

theorem durPos_setKey (d : DataMap) (k : String) (v : List Task) (hd : DurPos d)
    (hv : ∀ t ∈ v, 0 < t.durationMinutes) : DurPos (setKey d k v) := by
  intro p hp t ht
  rcases mem_setKey d k v p hp with h | h
  · subst h; exact hv t ht
  · exact hd p h t ht

theorem durPos_commitTask (form : Pending) (cd : String) (d : DataMap)
    (fid : String) (hd : DurPos d) (hdur : 0 < form.durationMinutes) :
    DurPos (commitTask form cd d fid).1 := by
  unfold commitTask
  by_cases h : (form.isEdit && idTruthy form.editId) = true
  · rw [if_pos h]
    refine durPos_setKey d cd _ hd ?_
    intro t ht
    rcases List.mem_map.mp ht with ⟨t0, ht0, hmap⟩
    unfold editApply at hmap
    by_cases he : form.editId = some t0.id
    · rw [if_pos he] at hmap
      rw [← hmap]
      exact hdur
    · rw [if_neg he] at hmap
      rw [← hmap]
      exact durPos_getList d cd hd t0 ht0
  · rw [if_neg h]
    refine durPos_setKey d cd _ hd ?_
    intro t ht
    rcases List.mem_append.mp ht with ht | ht
    · exact durPos_getList d cd hd t ht
    · rcases List.mem_singleton.mp ht with rfl
      exact hdur

theorem durPos_toggleDone (date id : String) (d d2 : DataMap) (hd : DurPos d)
    (h : toggleDone date id d = some d2) : DurPos d2 := by
  unfold toggleDone at h
  cases hl : lookupKey d date with
  | none => rw [hl] at h; simp at h
  | some l =>
    rw [hl] at h
    injection h with h
    subst h
    refine durPos_setKey d date _ hd ?_
    intro t ht
    rcases List.mem_map.mp ht with ⟨t0, ht0, hmap⟩
    have ht0p : 0 < t0.durationMinutes := hd _ (lookupKey_mem d date l hl) t0 ht0
    by_cases he : t0.id = id
    · rw [if_pos he] at hmap; rw [← hmap]; exact ht0p
    · rw [if_neg he] at hmap; rw [← hmap]; exact ht0p

theorem durPos_removeTask (date id : String) (d d2 : DataMap) (hd : DurPos d)
    (h : removeTask date id d = some d2) : DurPos d2 := by
  unfold removeTask at h
  cases hl : lookupKey d date with
  | none => rw [hl] at h; simp at h
  | some l =>
    rw [hl] at h
    injection h with h
    subst h
    refine durPos_setKey d date _ hd ?_
    intro t ht
    exact hd _ (lookupKey_mem d date l hl) t (List.mem_of_mem_filter ht)

theorem durPos_resetDay (date : String) (d : DataMap) (hd : DurPos d) :
    DurPos (resetDay date d) := by
  unfold resetDay
  refine durPos_setKey d date _ hd ?_
  intro t ht
  simp at ht

/-- Case analysis of a submission: every run of `addOrUpdateTask` either
errors (store untouched), prompts with a pending form whose duration is the
submitted positive duration, or immediately commits that pending form. -/
theorem addOrUpdateTask_shape (st : FormState) (cd : String) (data : DataMap)
    (fid : String) :
    (∃ msg, addOrUpdateTask st cd data fid = .error msg) ∨
    (∃ p : Pending, addOrUpdateTask st cd data fid = .prompt p ∧
      p.durationMinutes = st.durHours * 60 + st.durMinutes ∧
      0 < p.durationMinutes) ∨
    (∃ p : Pending,
      addOrUpdateTask st cd data fid =
        .committed (commitTask p cd data fid).1 (commitTask p cd data fid).2 ∧
      0 < p.durationMinutes) := by
  simp only [addOrUpdateTask]
  by_cases h1 : jsTrim st.name = ""
  · rw [if_pos h1]; exact Or.inl ⟨_, rfl⟩
  rw [if_neg h1]
  by_cases h2 : st.startTime = ""
  · rw [if_pos h2]; exact Or.inl ⟨_, rfl⟩
  rw [if_neg h2]
  by_cases h3 : st.durHours * 60 + st.durMinutes ≤ 0
  · rw [if_pos h3]; exact Or.inl ⟨_, rfl⟩
  rw [if_neg h3]
  cases hc : calcEndTimeFromStart st.startTime (st.durHours * 60 + st.durMinutes) with
  | none => exact Or.inl ⟨_, rfl⟩
  | some endT =>
    dsimp only
    by_cases hb : jsGe (endMinOrZero endT) (.num (22 * 60)) = true
    · rw [if_pos hb]
      exact Or.inr (Or.inl ⟨_, rfl, rfl, by simp only []; omega⟩)
    · rw [if_neg hb]
      exact Or.inr (Or.inr ⟨_, rfl, by simp only []; omega⟩)

/-! ### Claims -/

/-- C1 counterexample: at `startTime = "23:00"`, `durationMinutes = 60` the
claim's hypotheses hold (`1380 + 60 ≤ 1440`) and validation succeeds, but
`minutesToTime` clamps the boundary value `1440` to `"23:59"`, so
`timeToMinutes endTime = 1439 ≠ 1380 + 60`. -/
theorem C1_boundary_clamped :
    timeToMinutes "23:00" = .num 1380 ∧
    calcEndTimeFromStart "23:00" 60 = some "23:59" ∧
    timeToMinutes "23:59" = .num 1439 ∧
    (1439 : Int) ≠ 1380 + 60 := by decide

/-- C1 (amended): for a proposal whose name and start time pass the field
checks, whose start parses to a minute value `s ≥ 0`, with positive duration
and `s + duration < 1440` (strictly below the day boundary, where the
original claim allowed equality), validation succeeds — `addOrUpdateTask`
returns no error — and the computed end time round-trips:
`timeToMinutes endTime = s + duration`. -/
theorem C1_end_time_roundtrip (st : FormState) (cd : String) (data : DataMap)
    (fid : String) (s : Int) (hname : jsTrim st.name ≠ "")
    (hstart0 : st.startTime ≠ "")
    (hs : timeToMinutes st.startTime = .num s) (hs0 : 0 ≤ s)
    (hdur : 0 < st.durHours * 60 + st.durMinutes)
    (hlt : s + (st.durHours * 60 + st.durMinutes) < 1440) :
    ∃ endT,
      calcEndTimeFromStart st.startTime (st.durHours * 60 + st.durMinutes) = some endT ∧
      timeToMinutes endT = .num (s + (st.durHours * 60 + st.durMinutes)) ∧
      ∀ msg, addOrUpdateTask st cd data fid ≠ .error msg := by
  have hcalc : calcEndTimeFromStart st.startTime (st.durHours * 60 + st.durMinutes) =
      some (minutesToTime (.num (s + (st.durHours * 60 + st.durMinutes)))) := by
    unfold calcEndTimeFromStart
    rw [hs]
    dsimp only
    rw [if_neg (by omega)]
  have hcast : s + (st.durHours * 60 + st.durMinutes) =
      (((s + (st.durHours * 60 + st.durMinutes)).toNat : Nat) : Int) := by omega
  have hrt : timeToMinutes (minutesToTime (.num (s + (st.durHours * 60 + st.durMinutes)))) =
      .num (s + (st.durHours * 60 + st.durMinutes)) := by
    rw [hcast]
    exact timeToMinutes_minutesToTime _ (by omega)
  refine ⟨_, hcalc, hrt, ?_⟩
  intro msg h
  simp only [addOrUpdateTask] at h
  rw [if_neg hname, if_neg hstart0,
    if_neg (by omega : ¬st.durHours * 60 + st.durMinutes ≤ 0), hcalc] at h
  dsimp only at h
  split at h <;> exact SubmitResult.noConfusion h

/-- C1 witness: the amended theorem applied to a concrete proposal. -/
theorem C1_end_time_roundtrip_witness :
    ∃ endT,
      calcEndTimeFromStart "09:00" ((0 : Int) * 60 + 30) = some endT ∧
      timeToMinutes endT = .num (540 + ((0 : Int) * 60 + 30)) ∧
      ∀ msg, addOrUpdateTask ⟨"Read", 0, 30, "09:00", none⟩ "2025-01-01" [] "t1" ≠ .error msg :=
  C1_end_time_roundtrip ⟨"Read", 0, 30, "09:00", none⟩ "2025-01-01" [] "t1" 540
    (by decide) (by decide) (by decide) (by decide) (by decide) (by decide)

/-- C2: the TypeScript `addOrUpdateTask` — the version of the component the
application mounts — performs no out-of-order check: a new task starting
strictly before the previous task's end (`"09:00"` against a previous end of
`"09:30"`) is accepted and appended, while the earlier JavaScript version of
the same component in this repository rejects exactly this submission with
the out-of-order error, as the spec describes. -/
theorem C2_ts_accepts_out_of_order :
    addOrUpdateTask ⟨"Nap", 0, 10, "09:00", none⟩ "2025-01-01"
        [("2025-01-01", [⟨"t1", "Read", 30, "09:00", "09:30", false⟩])] "t2" =
      .committed
        [("2025-01-01",
          [⟨"t1", "Read", 30, "09:00", "09:30", false⟩,
           ⟨"t2", "Nap", 10, "09:00", "09:10", false⟩])] (some "09:10") ∧
    addOrUpdateTaskJS ⟨"Nap", 0, 10, "09:00", none⟩ "2025-01-01"
        [("2025-01-01", [⟨"t1", "Read", 30, "09:00", "09:30", false⟩])] "t2" =
      .error "Start time cannot be earlier than the previous task's end time." := by
  decide

/-- C3: whenever the start time parses to `s` and
`s + duration > 1440`, the submission fails with the overflow error (an
`error` result carries no store, so nothing is added or updated and the
day's list is unchanged). -/
theorem C3_overflow_rejected (st : FormState) (cd : String) (data : DataMap)
    (fid : String) (s : Int) (hname : jsTrim st.name ≠ "")
    (hstart0 : st.startTime ≠ "")
    (hdur : 0 < st.durHours * 60 + st.durMinutes)
    (hs : timeToMinutes st.startTime = .num s)
    (hover : 1440 < s + (st.durHours * 60 + st.durMinutes)) :
    addOrUpdateTask st cd data fid =
      .error "Task would end past midnight. Pick a shorter duration or earlier start." := by
  have hcalc : calcEndTimeFromStart st.startTime (st.durHours * 60 + st.durMinutes) = none := by
    unfold calcEndTimeFromStart
    rw [hs]
    dsimp only
    rw [if_pos (by omega)]
  simp only [addOrUpdateTask]
  rw [if_neg hname, if_neg hstart0,
    if_neg (by omega : ¬st.durHours * 60 + st.durMinutes ≤ 0), hcalc]

/-- C3 witness: the spec's own scenario, `{start: "23:50", duration: 20}`. -/
theorem C3_overflow_rejected_witness :
    addOrUpdateTask ⟨"Sleep", 0, 20, "23:50", none⟩ "2025-01-01" [] "t1" =
      .error "Task would end past midnight. Pick a shorter duration or earlier start." :=
  C3_overflow_rejected ⟨"Sleep", 0, 20, "23:50", none⟩ "2025-01-01" [] "t1" 1430
    (by decide) (by decide) (by decide) (by decide) (by decide)

/-- C4: an otherwise-valid proposal whose computed end is at or after
`22 * 60` minutes is not rejected: `addOrUpdateTask` returns the bedtime
prompt carrying exactly the pending proposal; `handleModalConfirm` commits
exactly that pending form via `commitTask`, and `handleModalCancel` returns
the `data` map unchanged (it only clears the pending form and closes the
modal). -/
theorem C4_bedtime_gate (st : FormState) (cd : String) (data : DataMap)
    (fid : String) (endT : String)
    (hname : jsTrim st.name ≠ "") (hstart0 : st.startTime ≠ "")
    (hdur : 0 < st.durHours * 60 + st.durMinutes)
    (hcalc : calcEndTimeFromStart st.startTime (st.durHours * 60 + st.durMinutes) = some endT)
    (hbed : jsGe (endMinOrZero endT) (.num (22 * 60)) = true) :
    addOrUpdateTask st cd data fid =
      .prompt ⟨st.name, st.durHours * 60 + st.durMinutes, st.startTime, endT,
        st.editTask.isSome, st.editTask.map Task.id⟩ ∧
    (∀ (p : Pending) (mo : Bool),
      handleModalConfirm ⟨some p, mo⟩ cd data fid =
        ((commitTask p cd data fid).1, ⟨none, false⟩, (commitTask p cd data fid).2)) ∧
    (∀ ms : ModalState, handleModalCancel ms data = (data, ⟨none, false⟩)) := by
  refine ⟨?_, fun p mo => rfl, fun ms => rfl⟩
  simp only [addOrUpdateTask]
  rw [if_neg hname, if_neg hstart0,
    if_neg (by omega : ¬st.durHours * 60 + st.durMinutes ≤ 0), hcalc]
  dsimp only
  rw [if_pos hbed]

/-- C4 witness: a task ending at `22:20` triggers the prompt. -/
theorem C4_bedtime_gate_witness :
    addOrUpdateTask ⟨"Sleep", 0, 30, "21:50", none⟩ "2025-01-01" [] "t1" =
      .prompt ⟨"Sleep", (0 : Int) * 60 + 30, "21:50", "22:20", false, none⟩ ∧
    (∀ (p : Pending) (mo : Bool),
      handleModalConfirm ⟨some p, mo⟩ "2025-01-01" [] "t1" =
        ((commitTask p "2025-01-01" [] "t1").1, ⟨none, false⟩,
          (commitTask p "2025-01-01" [] "t1").2)) ∧
    (∀ ms : ModalState, handleModalCancel ms [] = ([], ⟨none, false⟩)) :=
  C4_bedtime_gate ⟨"Sleep", 0, 30, "21:50", none⟩ "2025-01-01" [] "t1" "22:20"
    (by decide) (by decide) (by decide) (by decide) (by decide)

/-- C5: for every minute offset `m` in `[0, 1439]`,
`timeToMinutes (minutesToTime m) = m`. -/
theorem C5_roundtrip (m : Nat) (hm : m ≤ 1439) :
    timeToMinutes (minutesToTime (.num (m : Int))) = .num (m : Int) :=
  timeToMinutes_minutesToTime m hm

/-- C5 witness: the round trip at `m = 570`. -/
theorem C5_roundtrip_witness :
    timeToMinutes (minutesToTime (.num ((570 : Nat) : Int))) = .num ((570 : Nat) : Int) :=
  C5_roundtrip 570 (by decide)

/-- C6 counterexample: `"ab"` is a non-empty invalid input, and
`timeToMinutes "ab"` is `NaN`, not `null` — the claim says every invalid
input yields `null`. -/
theorem C6_invalid_gives_nan :
    "ab" ≠ "" ∧ timeToMinutes "ab" = .nan ∧ timeToMinutes "ab" ≠ .null := by
  decide

/-- C6 (amended): `timeToMinutes` returns `null` exactly on the empty
string; a non-empty invalid input yields `NaN` instead; a missing hour or
minute segment is treated as `0` (`":30"` parses to 30 and `"12"` to
720). -/
theorem C6_lenient_parse :
    timeToMinutes "" = .null ∧
    (∀ s : String, s ≠ "" → timeToMinutes s ≠ .null) ∧
    timeToMinutes ":30" = .num 30 ∧
    timeToMinutes "12" = .num 720 ∧
    timeToMinutes "ab" = .nan := by
  refine ⟨by decide, ?_, by decide, by decide, by decide⟩
  intro s hs
  simp only [timeToMinutes, if_neg hs]
  split <;> simp

/-- C6 witness: the never-`null` clause applied at `"xy"`. -/
theorem C6_lenient_parse_witness : timeToMinutes "xy" ≠ .null :=
  C6_lenient_parse.2.1 "xy" (by decide)

/-- C7 counterexample: importing the row
`2025-01-01,Task,09:00,09:30,0,0` stores a task with
`durationMinutes = 0` (`Number(durationStr) || 0` defaults non-positive and
unparsable durations to `0`), so CSV import does not preserve the
`durationMinutes > 0` invariant. -/
theorem C7_import_breaks_invariant :
    lookupKey
        (importCSV "date,name,start,end,durationMinutes,done\n2025-01-01,Task,09:00,09:30,0,0"
          [] (fun i => natToString i)) "2025-01-01" =
      some [⟨"1", "Task", 0, "09:00", "09:30", false⟩] ∧
    ¬DurPos
        (importCSV "date,name,start,end,durationMinutes,done\n2025-01-01,Task,09:00,09:30,0,0"
          [] (fun i => natToString i)) := by
  decide

/-- C7 (amended, excluding CSV import): the submission path rejects
non-positive durations, and every state change through the form — an
immediate commit, a bedtime-confirmed commit — as well as `toggleDone`,
`removeTask` and `resetDay` preserves the `durationMinutes > 0` invariant;
CSV import is the one operation that can break it. -/
theorem C7_duration_invariant :
    (∀ (st : FormState) (cd : String) (data : DataMap) (fid : String),
      jsTrim st.name ≠ "" → st.startTime ≠ "" →
      st.durHours * 60 + st.durMinutes ≤ 0 →
      addOrUpdateTask st cd data fid = .error "Duration must be greater than 0.") ∧
    (∀ (st : FormState) (cd : String) (data : DataMap) (fid : String)
      (d2 : DataMap) (c : Option String), DurPos data →
      addOrUpdateTask st cd data fid = .committed d2 c → DurPos d2) ∧
    (∀ (st : FormState) (cd : String) (data : DataMap) (fid : String) (p : Pending),
      DurPos data → addOrUpdateTask st cd data fid = .prompt p →
      DurPos (handleModalConfirm ⟨some p, true⟩ cd data fid).1) ∧
    (∀ (date id : String) (data d2 : DataMap), DurPos data →
      toggleDone date id data = some d2 → DurPos d2) ∧
    (∀ (date id : String) (data d2 : DataMap), DurPos data →
      removeTask date id data = some d2 → DurPos d2) ∧
    (∀ (date : String) (data : DataMap), DurPos data → DurPos (resetDay date data)) := by
  refine ⟨?_, ?_, ?_, durPos_toggleDone, durPos_removeTask,
    fun date data hd => durPos_resetDay date data hd⟩
  · intro st cd data fid h1 h2 h3
    simp only [addOrUpdateTask]
    rw [if_neg h1, if_neg h2, if_pos h3]
  · intro st cd data fid d2 c hd h
    rcases addOrUpdateTask_shape st cd data fid with ⟨msg, he⟩ | ⟨p, hp, _, _⟩ | ⟨p, hp, hdp⟩
    · rw [he] at h; exact SubmitResult.noConfusion h
    · rw [hp] at h; exact SubmitResult.noConfusion h
    · rw [hp] at h
      injection h with h1 h2
      rw [← h1]
      exact durPos_commitTask p cd data fid hd hdp
  · intro st cd data fid p hd h
    rcases addOrUpdateTask_shape st cd data fid with ⟨msg, he⟩ | ⟨q, hq, _, hdq⟩ | ⟨q, hq, _⟩
    · rw [he] at h; exact SubmitResult.noConfusion h
    · rw [hq] at h
      injection h with h1
      subst h1
      exact durPos_commitTask q cd data fid hd hdq
    · rw [hq] at h; exact SubmitResult.noConfusion h

/-- C7 witness: the rejection clause applied at a zero-duration proposal. -/
theorem C7_duration_invariant_witness :
    addOrUpdateTask ⟨"X", 0, 0, "09:00", none⟩ "2025-01-01" [] "t1" =
      .error "Duration must be greater than 0." :=
  C7_duration_invariant.1 ⟨"X", 0, 0, "09:00", none⟩ "2025-01-01" [] "t1"
    (by decide) (by decide) (by decide)

/-- C8 counterexample: when the date key is absent from the store, the
source's `d[date].filter(...)` is a `TypeError` on `undefined` (modelled by
`none`), not a no-op that leaves the store unchanged. -/
theorem C8_absent_date_crashes :
    removeTask "2025-01-01" "t1" ([] : DataMap) = none := by decide

/-- C8 (amended): when the date key is present, `removeTask` succeeds —
removing every task with the given id, leaving the day's list as is when no
task matches (a genuine no-op returning the same store), and leaving every
other date's list unchanged; only an absent date key crashes. -/
theorem C8_remove_on_present_date (data : DataMap) (date id : String)
    (l : List Task) (h : lookupKey data date = some l) :
    removeTask date id data =
      some (setKey data date (l.filter (fun t => t.id != id))) ∧
    lookupKey (setKey data date (l.filter (fun t => t.id != id))) date =
      some (l.filter (fun t => t.id != id)) ∧
    (∀ t ∈ l.filter (fun t => t.id != id), t.id ≠ id) ∧
    ((∀ t ∈ l, t.id ≠ id) → removeTask date id data = some data) ∧
    (∀ date2, date2 ≠ date →
      lookupKey (setKey data date (l.filter (fun t => t.id != id))) date2 =
        lookupKey data date2) := by
  have hrm : removeTask date id data =
      some (setKey data date (l.filter (fun t => t.id != id))) := by
    unfold removeTask; rw [h]
  refine ⟨hrm, lookupKey_setKey_self _ _ _, ?_, ?_,
    fun date2 h2 => lookupKey_setKey_other _ _ _ _ h2⟩
  · intro t ht
    have := (List.mem_filter.mp ht).2
    simpa using this
  · intro hall
    have hfe : l.filter (fun t => t.id != id) = l := by
      apply List.filter_eq_self.mpr
      intro t ht
      simpa using hall t ht
    rw [hrm, hfe, setKey_self_of_lookup data date l h]

/-- C8 witness: removing an id that is not in the present day's list returns
the store unchanged. -/
theorem C8_remove_on_present_date_witness :
    removeTask "2025-01-01" "zz"
        [("2025-01-01", [⟨"t1", "Read", 30, "09:00", "09:30", false⟩])] =
      some [("2025-01-01", [⟨"t1", "Read", 30, "09:00", "09:30", false⟩])] :=
  (C8_remove_on_present_date
      [("2025-01-01", [⟨"t1", "Read", 30, "09:00", "09:30", false⟩])]
      "2025-01-01" "zz" [⟨"t1", "Read", 30, "09:00", "09:30", false⟩]
      (by decide)).2.2.2.1 (by decide)

/-- C9: a successful edit commit maps `editApply` over the day's list: the
matched task receives the proposal's (trimmed) name, duration, start and end
while keeping its `id` and `done` flag, and every task with a different id
is returned unchanged. -/
theorem C9_edit_replaces_fields (form : Pending) (cd : String) (data : DataMap)
    (fid : String) (eid : String) (hedit : form.isEdit = true)
    (hid : form.editId = some eid) (hne : eid ≠ "") :
    lookupKey (commitTask form cd data fid).1 cd =
      some ((getList data cd).map (editApply form)) ∧
    ∀ t ∈ getList data cd,
      (editApply form t).id = t.id ∧
      (editApply form t).done = t.done ∧
      (t.id ≠ eid → editApply form t = t) ∧
      (t.id = eid →
        (editApply form t).name = jsTrim form.name ∧
        (editApply form t).durationMinutes = form.durationMinutes ∧
        (editApply form t).startTime = form.startTime ∧
        (editApply form t).endTime = form.endTime) := by
  have hcond : (form.isEdit && idTruthy form.editId) = true := by
    rw [hedit, hid]
    simp [idTruthy, hne]
  constructor
  · unfold commitTask
    rw [if_pos hcond]
    exact lookupKey_setKey_self _ _ _
  · intro t _
    unfold editApply
    by_cases hm : form.editId = some t.id
    · rw [if_pos hm]
      rw [hid] at hm
      injection hm with hm
      exact ⟨rfl, rfl, fun hne2 => absurd hm.symm hne2,
        fun _ => ⟨rfl, rfl, rfl, rfl⟩⟩
    · rw [if_neg hm]
      refine ⟨rfl, rfl, fun _ => rfl, fun heq => absurd ?_ hm⟩
      rw [hid, heq]

/-- C9 witness: editing task `t1` of a two-task day. -/
theorem C9_edit_replaces_fields_witness :
    lookupKey
        (commitTask ⟨"Jog", 45, "08:00", "08:45", true, some "t1"⟩ "2025-01-01"
          [("2025-01-01",
            [⟨"t1", "Read", 30, "09:00", "09:30", true⟩,
             ⟨"t2", "Nap", 10, "09:30", "09:40", false⟩])] "tX").1 "2025-01-01" =
      some ((getList
          [("2025-01-01",
            [⟨"t1", "Read", 30, "09:00", "09:30", true⟩,
             ⟨"t2", "Nap", 10, "09:30", "09:40", false⟩])] "2025-01-01").map
        (editApply ⟨"Jog", 45, "08:00", "08:45", true, some "t1"⟩)) ∧
    ∀ t ∈ getList
        [("2025-01-01",
          [⟨"t1", "Read", 30, "09:00", "09:30", true⟩,
           ⟨"t2", "Nap", 10, "09:30", "09:40", false⟩])] "2025-01-01",
      (editApply ⟨"Jog", 45, "08:00", "08:45", true, some "t1"⟩ t).id = t.id ∧
      (editApply ⟨"Jog", 45, "08:00", "08:45", true, some "t1"⟩ t).done = t.done ∧
      (t.id ≠ "t1" → editApply ⟨"Jog", 45, "08:00", "08:45", true, some "t1"⟩ t = t) ∧
      (t.id = "t1" →
        (editApply ⟨"Jog", 45, "08:00", "08:45", true, some "t1"⟩ t).name =
          jsTrim "Jog" ∧
        (editApply ⟨"Jog", 45, "08:00", "08:45", true, some "t1"⟩ t).durationMinutes = 45 ∧
        (editApply ⟨"Jog", 45, "08:00", "08:45", true, some "t1"⟩ t).startTime = "08:00" ∧
        (editApply ⟨"Jog", 45, "08:00", "08:45", true, some "t1"⟩ t).endTime = "08:45") :=
  C9_edit_replaces_fields ⟨"Jog", 45, "08:00", "08:45", true, some "t1"⟩ "2025-01-01"
    [("2025-01-01",
      [⟨"t1", "Read", 30, "09:00", "09:30", true⟩,
       ⟨"t2", "Nap", 10, "09:30", "09:40", false⟩])] "tX" "t1"
    (by decide) (by decide) (by decide)

/-- C10: every mutation applied to one date — a `commitTask` (add or edit),
`toggleDone`, `removeTask`, `resetDay` — leaves the task list of every other
date unchanged. -/
theorem C10_frame_other_dates (data : DataMap) (cd date2 : String)
    (hne : date2 ≠ cd) :
    (∀ (form : Pending) (fid : String),
      lookupKey (commitTask form cd data fid).1 date2 = lookupKey data date2) ∧
    (∀ (id : String) (d2 : DataMap), toggleDone cd id data = some d2 →
      lookupKey d2 date2 = lookupKey data date2) ∧
    (∀ (id : String) (d2 : DataMap), removeTask cd id data = some d2 →
      lookupKey d2 date2 = lookupKey data date2) ∧
    lookupKey (resetDay cd data) date2 = lookupKey data date2 := by
  refine ⟨?_, ?_, ?_, lookupKey_setKey_other _ _ _ _ hne⟩
  · intro form fid
    unfold commitTask
    by_cases h : (form.isEdit && idTruthy form.editId) = true
    · rw [if_pos h]; exact lookupKey_setKey_other _ _ _ _ hne
    · rw [if_neg h]; exact lookupKey_setKey_other _ _ _ _ hne
  · intro id d2 h
    unfold toggleDone at h
    cases hl : lookupKey data cd with
    | none => rw [hl] at h; exact Option.noConfusion h
    | some l =>
      rw [hl] at h
      injection h with h
      rw [← h]
      exact lookupKey_setKey_other _ _ _ _ hne
  · intro id d2 h
    unfold removeTask at h
    cases hl : lookupKey data cd with
    | none => rw [hl] at h; exact Option.noConfusion h
    | some l =>
      rw [hl] at h
      injection h with h
      rw [← h]
      exact lookupKey_setKey_other _ _ _ _ hne

/-- C10 witness: the frame property at a concrete two-date store. -/
theorem C10_frame_other_dates_witness :
    (∀ (form : Pending) (fid : String),
      lookupKey
          (commitTask form "2025-01-01"
            [("2025-01-02", [⟨"t9", "Walk", 15, "10:00", "10:15", false⟩])] fid).1
          "2025-01-02" =
        lookupKey [("2025-01-02", [⟨"t9", "Walk", 15, "10:00", "10:15", false⟩])]
          "2025-01-02") ∧
    (∀ (id : String) (d2 : DataMap),
      toggleDone "2025-01-01" id
          [("2025-01-02", [⟨"t9", "Walk", 15, "10:00", "10:15", false⟩])] = some d2 →
      lookupKey d2 "2025-01-02" =
        lookupKey [("2025-01-02", [⟨"t9", "Walk", 15, "10:00", "10:15", false⟩])]
          "2025-01-02") ∧
    (∀ (id : String) (d2 : DataMap),
      removeTask "2025-01-01" id
          [("2025-01-02", [⟨"t9", "Walk", 15, "10:00", "10:15", false⟩])] = some d2 →
      lookupKey d2 "2025-01-02" =
        lookupKey [("2025-01-02", [⟨"t9", "Walk", 15, "10:00", "10:15", false⟩])]
          "2025-01-02") ∧
    lookupKey
        (resetDay "2025-01-01"
          [("2025-01-02", [⟨"t9", "Walk", 15, "10:00", "10:15", false⟩])])
        "2025-01-02" =
      lookupKey [("2025-01-02", [⟨"t9", "Walk", 15, "10:00", "10:15", false⟩])]
        "2025-01-02" :=
  C10_frame_other_dates
    [("2025-01-02", [⟨"t9", "Walk", 15, "10:00", "10:15", false⟩])]
    "2025-01-01" "2025-01-02" (by decide)

end Planner
